import Mathlib

/-!
# Verification of the pypoe socket-crafting calculator

Shallow embedding of `src/pypoe/socket_calcs.py` and `src/pypoe/utils.py`
(the attribute-name-keyed revision, which the repository treats as
authoritative).

Modelling conventions:
* Python `float` arithmetic is modelled exactly over `ℚ`; Python `int` over
  `ℤ` (socket counts, requirements, target components) or `ℕ` (colour counts
  of a crafting option, costs, attempt counts).
* A float `NaN` is modelled as `none` (an `Option` value); every Python
  comparison with `NaN` is false, which the filter predicate reproduces.
* `scipy.stats.multinomial.pmf` is modelled by the multinomial probability
  mass function together with its support rule (the result is `0` whenever a
  count is negative or the counts do not sum to the number of trials) and
  its bad-parameter rule: a non-positive trial count is flagged by
  `_process_parameters` and `logpmf` substitutes `NaN` for flagged
  parameters after the out-of-support substitution, so a non-positive trial
  count yields `NaN` regardless of the counts.
* `scipy.stats.geom.ppf q p` is modelled by the least `k ≥ 1` with geometric
  CDF `1 - (1-p)^k ≥ q`, computed by a bounded search whose fuel is ample for
  every concrete probability appearing in this development; outside the
  distribution's parameter domain `0 < p ≤ 1` (or for a `NaN` parameter) the
  result is `NaN`.
* A Python `KeyError` escaping `compute_chances` (an absent percentile
  label reached through the sort key) is modelled by the whole computation
  returning `none`.
* Python `sorted` (stable, ascending by a key) is modelled by a stable
  insertion sort; stable ascending sorts are extensionally unique, so this
  matches CPython's timsort output.
-/

namespace PyPoe

/-- A crafting option (`utils.RGB`): how many sockets are pre-fixed to red,
green and blue by the bench craft. -/
structure RGB where
  r : ℕ
  g : ℕ
  b : ℕ
deriving DecidableEq

/-- `RGB.__str__` from `utils.py`: "chromatic" when nothing is fixed,
otherwise "bench " followed by the nonzero `<count><letter>` pairs in the
fixed R, G, B order. -/
def RGB.str (o : RGB) : String :=
  let rs := if o.r > 0 then toString o.r ++ "R" else ""
  let gs := if o.g > 0 then toString o.g ++ "G" else ""
  let bs := if o.b > 0 then toString o.b ++ "B" else ""
  if rs ++ gs ++ bs = "" then "chromatic" else "bench " ++ rs ++ gs ++ bs

/-- The `Item` dataclass of `socket_calcs.py` (field defaults included). -/
structure Item where
  n_sockets : ℤ := 6
  max_sockets : ℤ := 6
  str_req : ℤ := 0
  dex_req : ℤ := 0
  int_req : ℤ := 0
deriving DecidableEq

/-- `Item.__iter__`: the attribute requirements in the fixed order
str, dex, int. -/
def Item.reqs (it : Item) : List ℤ := [it.str_req, it.dex_req, it.int_req]

/-- `Item.__post_init__`: `n_req` is the number of strictly positive
requirements (`filter(lambda x: x > 0)`). -/
def Item.n_req (it : Item) : ℕ := (it.reqs.filter (fun x => 0 < x)).length

/-- Construction of an `Item`.  The Python dataclass `__init__` /
`__post_init__` contain no validation and no `raise`, so construction always
succeeds; the `Except` codomain makes "rejected at construction" expressible
in the logic. -/
def mkItem (ns ms s d i : ℤ) : Except String Item :=
  Except.ok { n_sockets := ns, max_sockets := ms, str_req := s, dex_req := d, int_req := i }

/-- Stable insertion of `x`, ascending by `key` (helper for the model of
Python `sorted(..., key=...)`).  The sort below inserts elements back to
front, so `x` comes from earlier in the original list than everything in
`l`; placing it before the first element of equal-or-larger key keeps
elements with equal keys in their original relative order. -/
def insertAsc {α : Type} {β : Type} [LinearOrder β] (key : α → β) (x : α) :
    List α → List α
  | [] => [x]
  | y :: ys => if key x ≤ key y then x :: y :: ys else y :: insertAsc key x ys

/-- Stable ascending sort by `key`: the model of Python's built-in
`sorted(iterable, key=...)` (toolz's curried `sorted` forwards to it). -/
def sortAsc {α : Type} {β : Type} [LinearOrder β] (key : α → β) :
    List α → List α
  | [] => []
  | x :: xs => insertAsc key x (sortAsc key xs)

/-- The `ColorChances._chances` dictionary.  In the source it is a Python
dict with the fixed keys "str", "dex", "int" inserted in that order (and
later updated in place, which preserves insertion order), so it is modelled
by one field per attribute. -/
structure Chances where
  cstr : ℚ
  cdex : ℚ
  cint : ℚ
deriving DecidableEq

/-- `self._chances[attr] = p` for an attribute drawn from the fixed key
set. -/
def Chances.set (c : Chances) (attr : String) (p : ℚ) : Chances :=
  if attr = "str" then { c with cstr := p }
  else if attr = "dex" then { c with cdex := p }
  else if attr = "int" then { c with cint := p }
  else c

/-- The `for (attr, _), p in zip(sorted_attrs, ps)` update loop of
`ColorChances.__init__`. -/
def Chances.applyUpdates (c : Chances) : List ((String × ℤ) × ℚ) → Chances
  | [] => c
  | ((attr, _), p) :: rest => (c.set attr p).applyUpdates rest

/-- `ColorChances._on_color_chance_1req`. -/
def onColorChance1req (R : ℚ) : ℚ := 9 / 10 * (R + 10) / (R + 20)

/-- `ColorChances._on_color_chance_2req`. -/
def onColorChance2req (R1 R2 : ℚ) : ℚ := 9 / 10 * R1 / (R1 + R2)

/-- `ColorChances.__init__`: derive the per-socket colour probabilities from
an item's attribute requirements. -/
def colorChances (item : Item) : Chances :=
  let attrNames : List String := ["str", "dex", "int"]
  let sorted_attrs := sortAsc (fun x => x.2) (attrNames.zip item.reqs)
  let uniform : Chances := ⟨1 / 3, 1 / 3, 1 / 3⟩
  let hi_attr : ℤ := (sorted_attrs.getD 2 ("", 0)).2
  let lo_attr : ℤ := (sorted_attrs.getD 1 ("", 0)).2
  if item.n_req = 1 then
    let on_chance : ℚ := onColorChance1req (hi_attr : ℚ)
    let off_chance : ℚ := (1 - on_chance) / 2
    uniform.applyUpdates (sorted_attrs.zip [off_chance, off_chance, on_chance])
  else if item.n_req = 2 then
    let on_chance : ℚ := onColorChance2req (hi_attr : ℚ) (lo_attr : ℚ)
    uniform.applyUpdates (sorted_attrs.zip [1 / 10, 9 / 10 - on_chance, on_chance])
  else uniform

/-- `ColorChances.__iter__` / `np.array(list(ColorChances(item)))`: the dict
values in insertion order, i.e. (str, dex, int). -/
def Chances.toTriple (c : Chances) : ℚ × ℚ × ℚ := (c.cstr, c.cdex, c.cint)

/-- `scipy.stats.multinomial.pmf` on three categories, with `none` for the
float `NaN`.  `_process_parameters` flags a non-positive trial count
(`ncond = n <= 0`) and `logpmf` substitutes `NaN` for flagged parameters
AFTER substituting `-inf` (pmf `0`) for out-of-support counts, so `n ≤ 0`
yields `NaN` regardless of the counts; otherwise the result is the
multinomial probability mass function, `0` outside the support (a negative
count, or counts that do not sum to `n`).  The other flag of
`_process_parameters` — a probability component outside `[0, 1]` after scipy
rewrites the last component to one minus the sum of the others — is
unreachable from this program: `ColorChances` always yields components in
`[0, 1]` that sum to exactly `1` (the 0/1/2/3-requirement formulas each sum
to `1` by construction), so the rewrite is the identity and the flag never
fires; it is therefore not modelled. -/
def multinomialPmf (x : ℤ × ℤ × ℤ) (n : ℤ) (p : ℚ × ℚ × ℚ) : Option ℚ :=
  if n ≤ 0 then none
  else if 0 ≤ x.1 ∧ 0 ≤ x.2.1 ∧ 0 ≤ x.2.2 ∧ x.1 + x.2.1 + x.2.2 = n then
    some ((Nat.factorial n.toNat : ℚ) /
        ((Nat.factorial x.1.toNat : ℚ) * (Nat.factorial x.2.1.toNat : ℚ) *
          (Nat.factorial x.2.2.toNat : ℚ)) *
      p.1 ^ x.1.toNat * p.2.1 ^ x.2.1.toNat * p.2.2 ^ x.2.2.toNat)
  else some 0

/-- Bounded search for the least `k` (counting up from the second argument)
with `1 - (1-p)^k ≥ q`. -/
def geomPpfAux (q p : ℚ) : ℕ → ℕ → ℕ
  | 0, k => k
  | fuel + 1, k => if q ≤ 1 - (1 - p) ^ k then k else geomPpfAux q p fuel (k + 1)

/-- `scipy.stats.geom.ppf q p`: the least `k ≥ 1` with geometric CDF
`1 - (1-p)^k ≥ q`, computed by bounded search (the fuel of 100 is ample for
every concrete probability evaluated in this development; the largest
attempt count that occurs is 39).  The geometric distribution's parameter
domain is `0 < p ≤ 1`; for a parameter outside it — in this program, the
success chance `0` of an out-of-support option — or for a `NaN` parameter,
`ppf` returns `NaN` (`none`). -/
def geomPpf (q : ℚ) (p : Option ℚ) : Option ℕ :=
  match p with
  | none => none
  | some pv => if 0 < pv ∧ pv ≤ 1 then some (geomPpfAux q pv 100 1) else none

/-- The `CHROMATIC_COSTS` dictionary: cost of a crafting option keyed by the
ascending-sorted triple of its colour counts. -/
def CHROMATIC_COSTS : List ((ℕ × ℕ × ℕ) × ℕ) :=
  [((0, 0, 0), 1), ((0, 0, 1), 4), ((0, 1, 1), 15),
   ((0, 0, 2), 25), ((0, 1, 2), 100), ((0, 0, 3), 120)]

/-- Python `tuple(sorted(bench_opt))`: the option's colour counts in
ascending order. -/
def RGB.sortedCounts (o : RGB) : ℕ × ℕ × ℕ :=
  match sortAsc (fun x => x) [o.r, o.g, o.b] with
  | [a, b, c] => (a, b, c)
  | _ => (0, 0, 0)

/-- `itertools.combinations_with_replacement(pool, r=3)`: all multisets of
size 3 from `pool`, as nondecreasing position sequences, in the order Python
yields them (lexicographic by pool position). -/
def combosWithRepl3 (pool : List Char) : List (List Char) :=
  pool.tails.flatMap (fun s =>
    match s with
    | [] => []
    | x :: _ =>
      s.tails.flatMap (fun t =>
        match t with
        | [] => []
        | y :: _ => t.map (fun z => [x, y, z])))

/-- `Counter` of a combination, with the null symbol `'0'` deleted
(`utils.delfn` with `key="0"`), read back as colour counts by
`RGB.__init__` via `kwargs.get`. -/
def toRGB (combo : List Char) : RGB :=
  { r := combo.count 'r', g := combo.count 'g', b := combo.count 'b' }

/-- `ChromaticCalculator.__init__`: the fixed crafting-option catalog,
built from `combinations_with_replacement("rgb0", r=3)` with the
one-of-each-colour combination (counts all equal to 1) filtered out.  It is
a parameterless constant: the source builds it from literals only, so it is
the same for every item and target. -/
def chromaticOptions : List RGB :=
  ((combosWithRepl3 ['r', 'g', 'b', '0']).map toRGB).filter
    (fun o => !(o.r == 1 && o.g == 1 && o.b == 1))

/-- The `ChromaticResult` dataclass.  The success probability is a float
that may be `NaN` (`none`); attempt-count percentiles are kept as the
association list produced by `dict(zip(labels, values))` (Python dicts
preserve insertion order; `zip` truncates to the shorter argument), each
value a float that is `NaN` (`none`) when the chance fed to `geom.ppf` was
`0` or `NaN`. -/
structure ChromaticResult where
  name : String
  success_probability_single_trial : Option ℚ
  cost_per_try : ℕ
  percentiles : List (String × Option ℕ)
deriving DecidableEq

/-- `ChromaticResult.cost`: `self.percentiles[at_percentile] *
self.cost_per_try`.  The outer `none` (absent label) models Python raising
`KeyError` on the dict access; the inner `none` (a `NaN` percentile value,
which multiplication propagates) models a `NaN` cost.  Both are fatal to any
use of the value, so the two `none` layers are joined. -/
def ChromaticResult.cost (res : ChromaticResult) (at_percentile : String := "66") : Option ℕ :=
  ((res.percentiles.lookup at_percentile).join).map (fun k => k * res.cost_per_try)

/-- Python's `x.success_probability_single_trial > 0` on a float that may be
`NaN`: every comparison with `NaN` is false. -/
def chancePos : Option ℚ → Bool
  | none => false
  | some c => decide (0 < c)

/-- The `multinomial.pmf` call of `ChromaticCalculator.compute_chances`: the
single-trial success chance of one crafting option.  The trial count is the
item's sockets minus the option's fixed sockets, the observed counts are the
target minus the option's fixed colours, and the outcome probabilities come
from `ColorChances`. -/
def singleTrialChance (item : Item) (desired : ℤ × ℤ × ℤ) (opt : RGB) : Option ℚ :=
  multinomialPmf
    (desired.1 - (opt.r : ℤ), desired.2.1 - (opt.g : ℤ), desired.2.2 - (opt.b : ℤ))
    (item.n_sockets - ((opt.r : ℤ) + (opt.g : ℤ) + (opt.b : ℤ)))
    (colorChances item).toTriple

/-- One iteration of the `compute_chances` loop: the `ChromaticResult` built
for one crafting option.  Note the source's `dict(zip(...))` pairs the SIX
computed percentile values with only FIVE labels, so the zip truncates: the
label "95" is absent and the label "99" receives the value computed for the
0.95 level. -/
def mkResult (item : Item) (desired : ℤ × ℤ × ℤ) (opt : RGB) : ChromaticResult :=
  let chance := singleTrialChance item desired opt
  let cost := (CHROMATIC_COSTS.lookup opt.sortedCounts).getD 0
  let percentileVals :=
    ([1 / 2, 66 / 100, 80 / 100, 9 / 10, 95 / 100, 99 / 100] : List ℚ).map
      (fun q => geomPpf q chance)
  { name := opt.str
  , success_probability_single_trial := chance
  , cost_per_try := cost
  , percentiles := List.zip ["50", "66", "80", "90", "99"] percentileVals }

/-- `ChromaticCalculator.compute_chances`: build a result per catalog
option, drop the options whose success chance is not strictly positive
(`0`, or the `NaN` of an over-fixing option — Python's `nan > 0` is false),
and sort the survivors ascending by cost at the requested percentile
(default "66").  Python's `sorted` evaluates the key on every element, so if
any surviving result lacks the requested label (or has a `NaN` cost) the
call raises `KeyError` (respectively sorts on `NaN`): the computation
returns `none` in that case and the sorted list otherwise.  Inside the
guarded branch every key is known to be `some`, so extracting it with
`getD` loses nothing. -/
def computeChances (item : Item) (desired : ℤ × ℤ × ℤ)
    (sort_by_percentile : String := "66") : Option (List ChromaticResult) :=
  let survivors :=
    (chromaticOptions.map (mkResult item desired)).filter
      (fun res => chancePos res.success_probability_single_trial)
  if ∀ res ∈ survivors, (res.cost sort_by_percentile).isSome = true then
    some (sortAsc (fun res => (res.cost sort_by_percentile).getD 0) survivors)
  else none

end PyPoe

namespace PyPoe

/-! ## Properties of the sorting model -/

theorem mem_insertAsc {α β : Type} [LinearOrder β] (key : α → β) (x y : α)
    (l : List α) : y ∈ insertAsc key x l ↔ y = x ∨ y ∈ l := by
  induction l with
  | nil => simp [insertAsc]
  | cons z zs ih =>
    simp only [insertAsc]
    split_ifs with h
    · simp [List.mem_cons]
    · simp only [List.mem_cons, ih]
      tauto

theorem mem_sortAsc {α β : Type} [LinearOrder β] (key : α → β) (x : α)
    (l : List α) : x ∈ sortAsc key l ↔ x ∈ l := by
  induction l with
  | nil => simp [sortAsc]
  | cons z zs ih => simp [sortAsc, mem_insertAsc, ih]

theorem pairwise_insertAsc {α β : Type} [LinearOrder β] (key : α → β) (x : α)
    (l : List α) (h : l.Pairwise (fun a b => key a ≤ key b)) :
    (insertAsc key x l).Pairwise (fun a b => key a ≤ key b) := by
  induction l with
  | nil => simp [insertAsc]
  | cons z zs ih =>
    rcases List.pairwise_cons.mp h with ⟨hz, hzs⟩
    simp only [insertAsc]
    split_ifs with hle
    · refine List.pairwise_cons.mpr ⟨?_, h⟩
      intro b hb
      rcases List.mem_cons.mp hb with rfl | hb
      · exact hle
      · exact le_trans hle (hz b hb)
    · refine List.pairwise_cons.mpr ⟨?_, ih hzs⟩
      intro b hb
      rcases (mem_insertAsc key x b zs).mp hb with rfl | hb
      · exact le_of_not_le hle
      · exact hz b hb

theorem pairwise_sortAsc {α β : Type} [LinearOrder β] (key : α → β)
    (l : List α) : (sortAsc key l).Pairwise (fun a b => key a ≤ key b) := by
  induction l with
  | nil => simp [sortAsc]
  | cons x xs ih => exact pairwise_insertAsc key x _ ih

/-! ## Claims -/

set_option maxRecDepth 100000

/-- C1 counterexample: the claim's "is 0 whenever the remaining target's
components do not sum to n" is false of the program.  For a legal 1-socket
item, the catalog option 2R fixes more sockets than the item has, so the
remaining trial count is `n = -1`; with target (1,1,0) the remaining target
(-1,1,0) does not sum to `n`, yet `multinomial.pmf` flags the non-positive
trial count and returns `NaN` — not 0. -/
theorem claim_C1_counterexample :
    (⟨2, 0, 0⟩ : RGB) ∈ chromaticOptions ∧
    ((1 : ℤ) - 2) + ((1 : ℤ) - 0) + ((0 : ℤ) - 0) ≠ (1 : ℤ) - (2 + 0 + 0) ∧
    singleTrialChance ⟨1, 6, 0, 0, 0⟩ (1, 1, 0) ⟨2, 0, 0⟩ = none ∧
    singleTrialChance ⟨1, 6, 0, 0, 0⟩ (1, 1, 0) ⟨2, 0, 0⟩ ≠ some 0 := by
  with_unfolding_all decide

/-- C1 amended: for every item, target and catalog option, the single-trial
success probability is the `multinomial.pmf` value at `remaining_target =
target - option.fixed_colors` over `n = total_sockets -
sum(option.fixed_colors)` trials with the item's per-socket colour
probabilities; when `n` is positive it is 0 whenever the remaining target's
components do not sum to `n`, but when the option's fixed colours meet or
exceed the item's total sockets (`n ≤ 0`) scipy's bad-parameter path makes
it NaN rather than 0; for a 6-socket item with no requirements and target
(2,2,2) the base chromatic option's probability is 90/729. -/
theorem claim_C1_amended :
    (∀ (item : Item) (desired : ℤ × ℤ × ℤ) (opt : RGB),
        opt ∈ chromaticOptions →
        singleTrialChance item desired opt =
          multinomialPmf
            (desired.1 - (opt.r : ℤ), desired.2.1 - (opt.g : ℤ), desired.2.2 - (opt.b : ℤ))
            (item.n_sockets - ((opt.r : ℤ) + (opt.g : ℤ) + (opt.b : ℤ)))
            (colorChances item).toTriple) ∧
    (∀ (item : Item) (desired : ℤ × ℤ × ℤ) (opt : RGB),
        0 < item.n_sockets - ((opt.r : ℤ) + (opt.g : ℤ) + (opt.b : ℤ)) →
        (desired.1 - (opt.r : ℤ)) + (desired.2.1 - (opt.g : ℤ)) + (desired.2.2 - (opt.b : ℤ)) ≠
          item.n_sockets - ((opt.r : ℤ) + (opt.g : ℤ) + (opt.b : ℤ)) →
        singleTrialChance item desired opt = some 0) ∧
    (∀ (item : Item) (desired : ℤ × ℤ × ℤ) (opt : RGB),
        item.n_sockets - ((opt.r : ℤ) + (opt.g : ℤ) + (opt.b : ℤ)) ≤ 0 →
        singleTrialChance item desired opt = none) ∧
    singleTrialChance {} (2, 2, 2) ⟨0, 0, 0⟩ = some (90 / 729) := by
  refine ⟨fun item desired opt _ => rfl, ?_, ?_, by with_unfolding_all decide⟩
  · intro item desired opt hn hne
    unfold singleTrialChance multinomialPmf
    rw [if_neg (not_le.mpr hn), if_neg]
    rintro ⟨-, -, -, h4⟩
    exact hne h4
  · intro item desired opt hn
    unfold singleTrialChance multinomialPmf
    rw [if_pos hn]

theorem claim_C1_witness :
    singleTrialChance {} (2, 2, 2) ⟨0, 0, 0⟩ =
      multinomialPmf (2, 2, 2) 6 (colorChances {}).toTriple ∧
    singleTrialChance {} (2, 3, 2) ⟨0, 0, 0⟩ = some 0 ∧
    singleTrialChance ⟨1, 6, 0, 0, 0⟩ (2, 0, 0) ⟨3, 0, 0⟩ = none :=
  ⟨by have h := claim_C1_amended.1 {} (2, 2, 2) ⟨0, 0, 0⟩ (by decide); exact h,
   claim_C1_amended.2.1 {} (2, 3, 2) ⟨0, 0, 0⟩ (by decide) (by decide),
   claim_C1_amended.2.2.1 ⟨1, 6, 0, 0, 0⟩ (2, 0, 0) ⟨3, 0, 0⟩ (by decide)⟩

/-- C5 counterexample: the claim's "success probability is exactly 0" is
false for the fixed-sum-exceeds-sockets prong.  On a legal 1-socket item the
catalog option 2R fixes two sockets; scipy flags the resulting trial count
`n = -1` as a bad parameter and `multinomial.pmf` returns `NaN`, not 0. -/
theorem claim_C5_counterexample :
    (⟨2, 0, 0⟩ : RGB) ∈ chromaticOptions ∧
    (1 : ℤ) < 2 + 0 + 0 ∧
    singleTrialChance ⟨1, 6, 0, 0, 0⟩ (1, 0, 0) ⟨2, 0, 0⟩ = none ∧
    singleTrialChance ⟨1, 6, 0, 0, 0⟩ (1, 0, 0) ⟨2, 0, 0⟩ ≠ some 0 := by
  with_unfolding_all decide

/-- C5 amended: an option whose fixed colours exceed the item's sockets has
single-trial success probability NaN (scipy's bad-parameter path), while an
option whose remaining target has a negative component with sockets still
remaining (positive trial count) has probability exactly 0; in either case
the probability fails the strictly-positive filter (no exception arises —
the loop body is total) and the option's result is absent from every list
the calculator returns. -/
theorem claim_C5_amended (item : Item) (desired : ℤ × ℤ × ℤ) (lvl : String) (opt : RGB)
    (_hmem : opt ∈ chromaticOptions)
    (hinf : item.n_sockets < (opt.r : ℤ) + (opt.g : ℤ) + (opt.b : ℤ) ∨
            desired.1 - (opt.r : ℤ) < 0 ∨ desired.2.1 - (opt.g : ℤ) < 0 ∨
            desired.2.2 - (opt.b : ℤ) < 0) :
    (item.n_sockets < (opt.r : ℤ) + (opt.g : ℤ) + (opt.b : ℤ) →
        singleTrialChance item desired opt = none) ∧
    (0 < item.n_sockets - ((opt.r : ℤ) + (opt.g : ℤ) + (opt.b : ℤ)) →
        singleTrialChance item desired opt = some 0) ∧
    chancePos (singleTrialChance item desired opt) = false ∧
    (∀ out, computeChances item desired lvl = some out →
        mkResult item desired opt ∉ out) := by
  have hnone : item.n_sockets - ((opt.r : ℤ) + (opt.g : ℤ) + (opt.b : ℤ)) ≤ 0 →
      singleTrialChance item desired opt = none := by
    intro hn
    unfold singleTrialChance multinomialPmf
    rw [if_pos hn]
  have hzero : 0 < item.n_sockets - ((opt.r : ℤ) + (opt.g : ℤ) + (opt.b : ℤ)) →
      singleTrialChance item desired opt = some 0 := by
    intro hn
    unfold singleTrialChance multinomialPmf
    rw [if_neg (not_le.mpr hn), if_neg]
    rintro ⟨h1, h2, h3, h4⟩
    dsimp only at h1 h2 h3 h4
    rcases hinf with h | h | h | h <;> omega
  have hfalse : chancePos (singleTrialChance item desired opt) = false := by
    rcases le_or_lt (item.n_sockets - ((opt.r : ℤ) + (opt.g : ℤ) + (opt.b : ℤ))) 0 with hn | hn
    · rw [hnone hn]
      rfl
    · rw [hzero hn]
      with_unfolding_all decide
  refine ⟨fun h => hnone (by omega), hzero, hfalse, ?_⟩
  intro out hout hmem
  simp only [computeChances] at hout
  by_cases hc : ∀ res ∈ (chromaticOptions.map (mkResult item desired)).filter
      (fun res => chancePos res.success_probability_single_trial),
      (res.cost lvl).isSome = true
  · rw [if_pos hc] at hout
    rw [← Option.some.inj hout, mem_sortAsc, List.mem_filter] at hmem
    have h2 := hmem.2
    have hfield : (mkResult item desired opt).success_probability_single_trial =
        singleTrialChance item desired opt := rfl
    rw [hfield, hfalse] at h2
    cases h2
  · rw [if_neg hc] at hout
    cases hout

theorem claim_C5_witness :
    singleTrialChance ⟨1, 6, 0, 0, 0⟩ (1, 0, 0) ⟨2, 0, 0⟩ = none ∧
    singleTrialChance {} (2, 2, 2) ⟨3, 0, 0⟩ = some 0 ∧
    mkResult ⟨1, 6, 0, 0, 0⟩ (1, 0, 0) ⟨2, 0, 0⟩ ∉
      (computeChances ⟨1, 6, 0, 0, 0⟩ (1, 0, 0) "66").getD [] := by
  refine ⟨?_, ?_, ?_⟩
  · exact (claim_C5_amended ⟨1, 6, 0, 0, 0⟩ (1, 0, 0) "66" ⟨2, 0, 0⟩ (by decide)
      (by decide)).1 (by decide)
  · exact (claim_C5_amended {} (2, 2, 2) "66" ⟨3, 0, 0⟩ (by decide) (by decide)).2.1
      (by decide)
  · intro hmem
    exact (claim_C5_amended ⟨1, 6, 0, 0, 0⟩ (1, 0, 0) "66" ⟨2, 0, 0⟩ (by decide)
      (by decide)).2.2.2 _ (by with_unfolding_all decide) hmem

/-- C6 counterexample: the ranked output is not returned for every
caller-selected confidence level.  At level "95" — a level the specification
lists as selectable, but which the percentile tables lack (see C3) — the
sort key's dict access raises `KeyError` as soon as any result survives the
filter, so `compute_chances` returns no list at all. -/
theorem claim_C6_counterexample :
    computeChances ⟨1, 6, 0, 0, 0⟩ (1, 0, 0) "95" = none := by
  with_unfolding_all decide

/-- C6 amended: whenever the calculator returns a list, that list holds
exactly the results whose single-trial success probability is strictly
positive (discarding the 0 and NaN ones), sorted ascending by
cost-at-percentile at the caller-selected level; it fails to return a list
(Python: `KeyError` from the sort key) exactly when some surviving result
has no cost at that level — which by the C3 truncation bug includes the
spec-listed level 95 whenever any result survives; the level argument
defaults to the 66% level. -/
theorem claim_C6_amended (item : Item) (desired : ℤ × ℤ × ℤ) (lvl : String) :
    (∀ out, computeChances item desired lvl = some out →
        ((∀ res : ChromaticResult,
            res ∈ out ↔
              (res ∈ chromaticOptions.map (mkResult item desired) ∧
               chancePos res.success_probability_single_trial = true)) ∧
         out.Pairwise (fun a b => ∀ ka kb, a.cost lvl = some ka →
            b.cost lvl = some kb → ka ≤ kb))) ∧
    (computeChances item desired lvl = none ↔
        ∃ res ∈ (chromaticOptions.map (mkResult item desired)).filter
            (fun res => chancePos res.success_probability_single_trial),
          (res.cost lvl).isSome = false) ∧
    computeChances item desired = computeChances item desired "66" := by
  refine ⟨?_, ⟨?_, ?_⟩, rfl⟩
  · intro out hout
    simp only [computeChances] at hout
    by_cases hc : ∀ res ∈ (chromaticOptions.map (mkResult item desired)).filter
        (fun res => chancePos res.success_probability_single_trial),
        (res.cost lvl).isSome = true
    · rw [if_pos hc] at hout
      have hEq := Option.some.inj hout
      constructor
      · intro res
        rw [← hEq, mem_sortAsc, List.mem_filter]
      · rw [← hEq]
        have hp := pairwise_sortAsc
          (fun res : ChromaticResult => (res.cost lvl).getD 0)
          ((chromaticOptions.map (mkResult item desired)).filter
            (fun res => chancePos res.success_probability_single_trial))
        exact hp.imp (fun hab ka kb hka hkb => by
          rw [hka, hkb] at hab
          simpa using hab)
    · rw [if_neg hc] at hout
      cases hout
  · intro hnone
    simp only [computeChances] at hnone
    by_cases hc : ∀ res ∈ (chromaticOptions.map (mkResult item desired)).filter
        (fun res => chancePos res.success_probability_single_trial),
        (res.cost lvl).isSome = true
    · rw [if_pos hc] at hnone
      cases hnone
    · push_neg at hc
      obtain ⟨res, hres, hfail⟩ := hc
      exact ⟨res, hres, by simpa using hfail⟩
  · rintro ⟨res, hres, hfail⟩
    simp only [computeChances]
    rw [if_neg]
    intro hall
    exact absurd (hall res hres) (by simp [hfail])

/-- C9 counterexample: the `Item` dataclass performs no validation, so a
negative attribute requirement or a negative socket count is accepted at
construction rather than rejected. -/
theorem claim_C9_counterexample :
    mkItem 6 6 (-5) 0 0 = Except.ok ⟨6, 6, -5, 0, 0⟩ ∧
    mkItem (-1) 6 0 0 0 = Except.ok ⟨-1, 6, 0, 0, 0⟩ :=
  ⟨rfl, rfl⟩

/-- C9 amended: constructing an `Item` never fails — there is no validation
of socket counts or attribute requirements — and a negative requirement is
simply not counted by the derived requirement count, which counts only the
strictly positive requirement values. -/
theorem claim_C9_amended (ns ms s d i : ℤ) :
    mkItem ns ms s d i = Except.ok ⟨ns, ms, s, d, i⟩ ∧
    Item.n_req ⟨ns, ms, s, d, i⟩ =
      (([s, d, i] : List ℤ).filter (fun x => 0 < x)).length :=
  ⟨rfl, rfl⟩

/-- C10: every catalog option's ascending-sorted colour-count triple is a
key of the cost table, so the cost lookup in `compute_chances` always
succeeds and yields a positive cost. -/
theorem claim_C10 (opt : RGB) (h : opt ∈ chromaticOptions) :
    ∃ c : ℕ, CHROMATIC_COSTS.lookup opt.sortedCounts = some c ∧ 0 < c := by
  have hall : ∀ o ∈ chromaticOptions,
      (CHROMATIC_COSTS.lookup o.sortedCounts).isSome = true ∧
        0 < (CHROMATIC_COSTS.lookup o.sortedCounts).getD 0 := by decide
  obtain ⟨h1, h2⟩ := hall opt h
  cases heq : CHROMATIC_COSTS.lookup opt.sortedCounts with
  | none => rw [heq] at h1; cases h1
  | some c =>
    refine ⟨c, rfl, ?_⟩
    rw [heq] at h2
    simpa using h2

theorem claim_C10_witness :
    ∃ c : ℕ, CHROMATIC_COSTS.lookup (RGB.sortedCounts ⟨0, 0, 0⟩) = some c ∧ 0 < c :=
  claim_C10 ⟨0, 0, 0⟩ (by decide)

end PyPoe

namespace PyPoe

set_option maxRecDepth 100000

/-! ## Characterisation of `colorChances`

One helper lemma per arrangement of the requirement values over the three
attributes.  Throughout, `v1` is the larger and `v2` the smaller of the two
positive requirement values (`0 < v2 ≤ v1`); ties are allowed and are where
the stability of Python's sort matters. -/

theorem cc_uniform (item : Item) (h1 : item.n_req ≠ 1) (h2 : item.n_req ≠ 2) :
    colorChances item = ⟨1 / 3, 1 / 3, 1 / 3⟩ := by
  simp only [colorChances]
  rw [if_neg h1, if_neg h2]

theorem cc2_sd (n m v1 v2 : ℤ) (h2 : 0 < v2) (h12 : v2 ≤ v1) :
    colorChances ⟨n, m, v1, v2, 0⟩ =
      ⟨onColorChance2req (v1 : ℚ) (v2 : ℚ),
       9 / 10 - onColorChance2req (v1 : ℚ) (v2 : ℚ), 1 / 10⟩ := by
  have h1 : 0 < v1 := lt_of_lt_of_le h2 h12
  have hreq : Item.n_req ⟨n, m, v1, v2, 0⟩ = 2 := by
    simp [Item.n_req, Item.reqs, List.filter, h1, h2]
  have hA : ¬ (v2 ≤ (0:ℤ)) := not_le.mpr h2
  have hB : ¬ (v1 ≤ (0:ℤ)) := not_le.mpr h1
  rcases lt_or_eq_of_le h12 with hlt | heq
  · have hC : ¬ (v1 ≤ v2) := not_le.mpr hlt
    simp [colorChances, hreq, sortAsc, insertAsc, hA, hB, hC,
      Chances.applyUpdates, Chances.set]
  · subst heq
    have hvne : ((v2 : ℚ)) ≠ 0 := by exact_mod_cast ne_of_gt h2
    have hkey : onColorChance2req (v2 : ℚ) (v2 : ℚ) = 9 / 20 := by
      unfold onColorChance2req
      rw [div_eq_iff (by intro hc; apply hvne; linarith)]
      ring
    simp [colorChances, hreq, sortAsc, insertAsc, hA, hB,
      Chances.applyUpdates, Chances.set, hkey]
    norm_num

theorem cc2_ds (n m v1 v2 : ℤ) (h2 : 0 < v2) (h12 : v2 ≤ v1) :
    colorChances ⟨n, m, v2, v1, 0⟩ =
      ⟨9 / 10 - onColorChance2req (v1 : ℚ) (v2 : ℚ),
       onColorChance2req (v1 : ℚ) (v2 : ℚ), 1 / 10⟩ := by
  have h1 : 0 < v1 := lt_of_lt_of_le h2 h12
  have hreq : Item.n_req ⟨n, m, v2, v1, 0⟩ = 2 := by
    simp [Item.n_req, Item.reqs, List.filter, h1, h2]
  have hA : ¬ (v1 ≤ (0:ℤ)) := not_le.mpr h1
  have hB : ¬ (v2 ≤ (0:ℤ)) := not_le.mpr h2
  simp [colorChances, hreq, sortAsc, insertAsc, hA, hB, h12,
    Chances.applyUpdates, Chances.set]

theorem cc2_si (n m v1 v2 : ℤ) (h2 : 0 < v2) (h12 : v2 ≤ v1) :
    colorChances ⟨n, m, v1, 0, v2⟩ =
      ⟨onColorChance2req (v1 : ℚ) (v2 : ℚ), 1 / 10,
       9 / 10 - onColorChance2req (v1 : ℚ) (v2 : ℚ)⟩ := by
  have h1 : 0 < v1 := lt_of_lt_of_le h2 h12
  have hreq : Item.n_req ⟨n, m, v1, 0, v2⟩ = 2 := by
    simp [Item.n_req, Item.reqs, List.filter, h1, h2]
  have hA : (0:ℤ) ≤ v2 := le_of_lt h2
  have hB : ¬ (v1 ≤ (0:ℤ)) := not_le.mpr h1
  rcases lt_or_eq_of_le h12 with hlt | heq
  · have hC : ¬ (v1 ≤ v2) := not_le.mpr hlt
    simp [colorChances, hreq, sortAsc, insertAsc, hA, hB, hC,
      Chances.applyUpdates, Chances.set]
  · subst heq
    have hvne : ((v2 : ℚ)) ≠ 0 := by exact_mod_cast ne_of_gt h2
    have hkey : onColorChance2req (v2 : ℚ) (v2 : ℚ) = 9 / 20 := by
      unfold onColorChance2req
      rw [div_eq_iff (by intro hc; apply hvne; linarith)]
      ring
    simp [colorChances, hreq, sortAsc, insertAsc, hA, hB,
      Chances.applyUpdates, Chances.set, hkey]
    norm_num

theorem cc2_is (n m v1 v2 : ℤ) (h2 : 0 < v2) (h12 : v2 ≤ v1) :
    colorChances ⟨n, m, v2, 0, v1⟩ =
      ⟨9 / 10 - onColorChance2req (v1 : ℚ) (v2 : ℚ), 1 / 10,
       onColorChance2req (v1 : ℚ) (v2 : ℚ)⟩ := by
  have h1 : 0 < v1 := lt_of_lt_of_le h2 h12
  have hreq : Item.n_req ⟨n, m, v2, 0, v1⟩ = 2 := by
    simp [Item.n_req, Item.reqs, List.filter, h1, h2]
  have hA : (0:ℤ) ≤ v1 := le_of_lt h1
  have hB : ¬ (v2 ≤ (0:ℤ)) := not_le.mpr h2
  simp [colorChances, hreq, sortAsc, insertAsc, hA, hB, h12,
    Chances.applyUpdates, Chances.set]

theorem cc2_di (n m v1 v2 : ℤ) (h2 : 0 < v2) (h12 : v2 ≤ v1) :
    colorChances ⟨n, m, 0, v1, v2⟩ =
      ⟨1 / 10, onColorChance2req (v1 : ℚ) (v2 : ℚ),
       9 / 10 - onColorChance2req (v1 : ℚ) (v2 : ℚ)⟩ := by
  have h1 : 0 < v1 := lt_of_lt_of_le h2 h12
  have hreq : Item.n_req ⟨n, m, 0, v1, v2⟩ = 2 := by
    simp [Item.n_req, Item.reqs, List.filter, h1, h2]
  have hA : (0:ℤ) ≤ v2 := le_of_lt h2
  have hB : (0:ℤ) ≤ v1 := le_of_lt h1
  rcases lt_or_eq_of_le h12 with hlt | heq
  · have hC : ¬ (v1 ≤ v2) := not_le.mpr hlt
    simp [colorChances, hreq, sortAsc, insertAsc, hA, hB, hC,
      Chances.applyUpdates, Chances.set]
  · subst heq
    have hvne : ((v2 : ℚ)) ≠ 0 := by exact_mod_cast ne_of_gt h2
    have hkey : onColorChance2req (v2 : ℚ) (v2 : ℚ) = 9 / 20 := by
      unfold onColorChance2req
      rw [div_eq_iff (by intro hc; apply hvne; linarith)]
      ring
    simp [colorChances, hreq, sortAsc, insertAsc, hA, hB,
      Chances.applyUpdates, Chances.set, hkey]
    norm_num

theorem cc2_id (n m v1 v2 : ℤ) (h2 : 0 < v2) (h12 : v2 ≤ v1) :
    colorChances ⟨n, m, 0, v2, v1⟩ =
      ⟨1 / 10, 9 / 10 - onColorChance2req (v1 : ℚ) (v2 : ℚ),
       onColorChance2req (v1 : ℚ) (v2 : ℚ)⟩ := by
  have h1 : 0 < v1 := lt_of_lt_of_le h2 h12
  have hreq : Item.n_req ⟨n, m, 0, v2, v1⟩ = 2 := by
    simp [Item.n_req, Item.reqs, List.filter, h1, h2]
  have hA : (0:ℤ) ≤ v2 := le_of_lt h2
  have hB : (0:ℤ) ≤ v1 := le_of_lt h1
  simp [colorChances, hreq, sortAsc, insertAsc, hA, hB, h12,
    Chances.applyUpdates, Chances.set]

theorem cc1_s (n m v : ℤ) (hv : 0 < v) :
    colorChances ⟨n, m, v, 0, 0⟩ =
      ⟨onColorChance1req (v : ℚ), (1 - onColorChance1req (v : ℚ)) / 2,
       (1 - onColorChance1req (v : ℚ)) / 2⟩ := by
  have hreq : Item.n_req ⟨n, m, v, 0, 0⟩ = 1 := by
    simp [Item.n_req, Item.reqs, List.filter, hv]
  have hA : ¬ (v ≤ (0:ℤ)) := not_le.mpr hv
  simp [colorChances, hreq, sortAsc, insertAsc, hA,
    Chances.applyUpdates, Chances.set]

theorem cc1_d (n m v : ℤ) (hv : 0 < v) :
    colorChances ⟨n, m, 0, v, 0⟩ =
      ⟨(1 - onColorChance1req (v : ℚ)) / 2, onColorChance1req (v : ℚ),
       (1 - onColorChance1req (v : ℚ)) / 2⟩ := by
  have hreq : Item.n_req ⟨n, m, 0, v, 0⟩ = 1 := by
    simp [Item.n_req, Item.reqs, List.filter, hv]
  have hA : ¬ (v ≤ (0:ℤ)) := not_le.mpr hv
  simp [colorChances, hreq, sortAsc, insertAsc, hA,
    Chances.applyUpdates, Chances.set]

theorem cc1_i (n m v : ℤ) (hv : 0 < v) :
    colorChances ⟨n, m, 0, 0, v⟩ =
      ⟨(1 - onColorChance1req (v : ℚ)) / 2, (1 - onColorChance1req (v : ℚ)) / 2,
       onColorChance1req (v : ℚ)⟩ := by
  have hreq : Item.n_req ⟨n, m, 0, 0, v⟩ = 1 := by
    simp [Item.n_req, Item.reqs, List.filter, hv]
  have hA : (0:ℤ) ≤ v := le_of_lt hv
  simp [colorChances, hreq, sortAsc, insertAsc, hA,
    Chances.applyUpdates, Chances.set]

theorem on1_bounds (R : ℚ) (h : 0 ≤ R) :
    0 ≤ onColorChance1req R ∧ onColorChance1req R ≤ 1 := by
  unfold onColorChance1req
  have hden : (0:ℚ) < R + 20 := by linarith
  refine ⟨div_nonneg (by linarith) hden.le, ?_⟩
  rw [div_le_one hden]
  linarith

theorem on2_bounds (R1 R2 : ℚ) (h2 : 0 < R2) (h12 : R2 ≤ R1) :
    0 ≤ onColorChance2req R1 R2 ∧ onColorChance2req R1 R2 ≤ 9 / 10 := by
  unfold onColorChance2req
  have hden : (0:ℚ) < R1 + R2 := by linarith
  refine ⟨div_nonneg (by linarith) hden.le, ?_⟩
  rw [div_le_iff₀ hden]
  linarith

end PyPoe

namespace PyPoe

set_option maxRecDepth 100000

/-- C2: for an item with exactly two nonzero requirements, writing `v1` for
the larger and `v2` for the smaller value, the model assigns
`0.9 * v1/(v1+v2)` to the attribute holding the larger requirement,
`0.9` minus that to the attribute holding the smaller requirement, and
exactly `0.1` to the unrequired attribute — keyed by attribute identity, for
every arrangement of the two requirements over str/dex/int. -/
theorem claim_C2 (n m v1 v2 : ℤ) (h2 : 0 < v2) (h12 : v2 ≤ v1) :
    colorChances ⟨n, m, v1, v2, 0⟩ =
      ⟨onColorChance2req (v1 : ℚ) (v2 : ℚ),
       9 / 10 - onColorChance2req (v1 : ℚ) (v2 : ℚ), 1 / 10⟩ ∧
    colorChances ⟨n, m, v2, v1, 0⟩ =
      ⟨9 / 10 - onColorChance2req (v1 : ℚ) (v2 : ℚ),
       onColorChance2req (v1 : ℚ) (v2 : ℚ), 1 / 10⟩ ∧
    colorChances ⟨n, m, v1, 0, v2⟩ =
      ⟨onColorChance2req (v1 : ℚ) (v2 : ℚ), 1 / 10,
       9 / 10 - onColorChance2req (v1 : ℚ) (v2 : ℚ)⟩ ∧
    colorChances ⟨n, m, v2, 0, v1⟩ =
      ⟨9 / 10 - onColorChance2req (v1 : ℚ) (v2 : ℚ), 1 / 10,
       onColorChance2req (v1 : ℚ) (v2 : ℚ)⟩ ∧
    colorChances ⟨n, m, 0, v1, v2⟩ =
      ⟨1 / 10, onColorChance2req (v1 : ℚ) (v2 : ℚ),
       9 / 10 - onColorChance2req (v1 : ℚ) (v2 : ℚ)⟩ ∧
    colorChances ⟨n, m, 0, v2, v1⟩ =
      ⟨1 / 10, 9 / 10 - onColorChance2req (v1 : ℚ) (v2 : ℚ),
       onColorChance2req (v1 : ℚ) (v2 : ℚ)⟩ :=
  ⟨cc2_sd n m v1 v2 h2 h12, cc2_ds n m v1 v2 h2 h12, cc2_si n m v1 v2 h2 h12,
   cc2_is n m v1 v2 h2 h12, cc2_di n m v1 v2 h2 h12, cc2_id n m v1 v2 h2 h12⟩

theorem claim_C2_witness :
    colorChances ⟨6, 6, 60, 40, 0⟩ =
      ⟨onColorChance2req (60 : ℚ) (40 : ℚ),
       9 / 10 - onColorChance2req (60 : ℚ) (40 : ℚ), 1 / 10⟩ :=
  (claim_C2 6 6 60 40 (by decide) (by decide)).1

/-- C7: an item with zero or three (positive) attribute requirements gets
the uniform per-colour probabilities (1/3, 1/3, 1/3); in particular the
three-requirement case falls back to uniform instead of failing (the
computation is total). -/
theorem claim_C7 (item : Item) (h : item.n_req = 0 ∨ item.n_req = 3) :
    colorChances item = ⟨1 / 3, 1 / 3, 1 / 3⟩ := by
  rcases h with h | h <;> exact cc_uniform item (by omega) (by omega)

theorem claim_C7_witness :
    colorChances ⟨6, 6, 0, 0, 0⟩ = ⟨1 / 3, 1 / 3, 1 / 3⟩ ∧
    colorChances ⟨6, 6, 50, 60, 70⟩ = ⟨1 / 3, 1 / 3, 1 / 3⟩ :=
  ⟨claim_C7 ⟨6, 6, 0, 0, 0⟩ (Or.inl (by decide)),
   claim_C7 ⟨6, 6, 50, 60, 70⟩ (Or.inr (by decide))⟩

/-- C8: for every item with non-negative requirements, each of the three
per-colour probabilities lies in [0, 1] and they sum to exactly 1, in every
case of the requirement-count split. -/
theorem claim_C8 (n m s d i : ℤ) (hs : 0 ≤ s) (hd : 0 ≤ d) (hi : 0 ≤ i) :
    (0 ≤ (colorChances ⟨n, m, s, d, i⟩).cstr ∧ (colorChances ⟨n, m, s, d, i⟩).cstr ≤ 1) ∧
    (0 ≤ (colorChances ⟨n, m, s, d, i⟩).cdex ∧ (colorChances ⟨n, m, s, d, i⟩).cdex ≤ 1) ∧
    (0 ≤ (colorChances ⟨n, m, s, d, i⟩).cint ∧ (colorChances ⟨n, m, s, d, i⟩).cint ≤ 1) ∧
    (colorChances ⟨n, m, s, d, i⟩).cstr + (colorChances ⟨n, m, s, d, i⟩).cdex +
      (colorChances ⟨n, m, s, d, i⟩).cint = 1 := by
  rcases hs.lt_or_eq with hs1 | hs1 <;> rcases hd.lt_or_eq with hd1 | hd1 <;>
    rcases hi.lt_or_eq with hi1 | hi1
  · -- three positive requirements: uniform
    have hreq : Item.n_req ⟨n, m, s, d, i⟩ = 3 := by
      simp [Item.n_req, Item.reqs, List.filter, hs1, hd1, hi1]
    rw [cc_uniform _ (by omega) (by omega)]
    norm_num
  · -- str and dex positive
    subst hi1
    rcases le_total d s with hle | hle
    · rw [cc2_sd n m s d hd1 hle]
      obtain ⟨ha, hb⟩ :=
        on2_bounds (s : ℚ) (d : ℚ) (by exact_mod_cast hd1) (by exact_mod_cast hle)
      dsimp only
      refine ⟨⟨?_, ?_⟩, ⟨?_, ?_⟩, ⟨?_, ?_⟩, ?_⟩ <;> linarith
    · rw [cc2_ds n m d s hs1 hle]
      obtain ⟨ha, hb⟩ :=
        on2_bounds (d : ℚ) (s : ℚ) (by exact_mod_cast hs1) (by exact_mod_cast hle)
      dsimp only
      refine ⟨⟨?_, ?_⟩, ⟨?_, ?_⟩, ⟨?_, ?_⟩, ?_⟩ <;> linarith
  · -- str and int positive
    subst hd1
    rcases le_total i s with hle | hle
    · rw [cc2_si n m s i hi1 hle]
      obtain ⟨ha, hb⟩ :=
        on2_bounds (s : ℚ) (i : ℚ) (by exact_mod_cast hi1) (by exact_mod_cast hle)
      dsimp only
      refine ⟨⟨?_, ?_⟩, ⟨?_, ?_⟩, ⟨?_, ?_⟩, ?_⟩ <;> linarith
    · rw [cc2_is n m i s hs1 hle]
      obtain ⟨ha, hb⟩ :=
        on2_bounds (i : ℚ) (s : ℚ) (by exact_mod_cast hs1) (by exact_mod_cast hle)
      dsimp only
      refine ⟨⟨?_, ?_⟩, ⟨?_, ?_⟩, ⟨?_, ?_⟩, ?_⟩ <;> linarith
  · -- only str positive
    subst hd1; subst hi1
    rw [cc1_s n m s hs1]
    obtain ⟨ha, hb⟩ := on1_bounds (s : ℚ) (by exact_mod_cast hs1.le)
    dsimp only
    refine ⟨⟨?_, ?_⟩, ⟨?_, ?_⟩, ⟨?_, ?_⟩, ?_⟩ <;> linarith
  · -- dex and int positive
    subst hs1
    rcases le_total i d with hle | hle
    · rw [cc2_di n m d i hi1 hle]
      obtain ⟨ha, hb⟩ :=
        on2_bounds (d : ℚ) (i : ℚ) (by exact_mod_cast hi1) (by exact_mod_cast hle)
      dsimp only
      refine ⟨⟨?_, ?_⟩, ⟨?_, ?_⟩, ⟨?_, ?_⟩, ?_⟩ <;> linarith
    · rw [cc2_id n m i d hd1 hle]
      obtain ⟨ha, hb⟩ :=
        on2_bounds (i : ℚ) (d : ℚ) (by exact_mod_cast hd1) (by exact_mod_cast hle)
      dsimp only
      refine ⟨⟨?_, ?_⟩, ⟨?_, ?_⟩, ⟨?_, ?_⟩, ?_⟩ <;> linarith
  · -- only dex positive
    subst hs1; subst hi1
    rw [cc1_d n m d hd1]
    obtain ⟨ha, hb⟩ := on1_bounds (d : ℚ) (by exact_mod_cast hd1.le)
    dsimp only
    refine ⟨⟨?_, ?_⟩, ⟨?_, ?_⟩, ⟨?_, ?_⟩, ?_⟩ <;> linarith
  · -- only int positive
    subst hs1; subst hd1
    rw [cc1_i n m i hi1]
    obtain ⟨ha, hb⟩ := on1_bounds (i : ℚ) (by exact_mod_cast hi1.le)
    dsimp only
    refine ⟨⟨?_, ?_⟩, ⟨?_, ?_⟩, ⟨?_, ?_⟩, ?_⟩ <;> linarith
  · -- no requirements: uniform
    subst hs1; subst hd1; subst hi1
    have hreq : Item.n_req ⟨n, m, 0, 0, 0⟩ = 0 := rfl
    rw [cc_uniform _ (by rw [hreq]; decide) (by rw [hreq]; decide)]
    norm_num

theorem claim_C8_witness :
    (0 ≤ (colorChances ⟨6, 6, 100, 50, 0⟩).cstr ∧ (colorChances ⟨6, 6, 100, 50, 0⟩).cstr ≤ 1) ∧
    (0 ≤ (colorChances ⟨6, 6, 100, 50, 0⟩).cdex ∧ (colorChances ⟨6, 6, 100, 50, 0⟩).cdex ≤ 1) ∧
    (0 ≤ (colorChances ⟨6, 6, 100, 50, 0⟩).cint ∧ (colorChances ⟨6, 6, 100, 50, 0⟩).cint ≤ 1) ∧
    (colorChances ⟨6, 6, 100, 50, 0⟩).cstr + (colorChances ⟨6, 6, 100, 50, 0⟩).cdex +
      (colorChances ⟨6, 6, 100, 50, 0⟩).cint = 1 :=
  claim_C8 6 6 100 50 0 (by decide) (by decide) (by decide)

/-- C3 is refuted by the code: `compute_chances` computes the six geometric
percentile values for the levels 0.5, 0.66, 0.80, 0.9, 0.95, 0.99 but then
builds `dict(zip(("50","66","80","90","99"), percentiles))`, whose key tuple
has only five labels and omits "95"; `zip` truncates, so the entry labelled
"99" actually stores the attempt count computed for the 0.95 level and the
true 0.99-level count is dropped.  Concretely, for a 1-socket item with no
requirements and target (1,0,0) the chromatic option has success chance 1/3;
its percentile table has no "95" key and maps "99" to 8, the attempt count
of the 95% level, while the 99% level's count is 12. -/
theorem claim_C3_bug :
    ((computeChances ⟨1, 6, 0, 0, 0⟩ (1, 0, 0) "66").bind
        (fun out => (out.find? (fun res => res.name == "chromatic")).map
          ChromaticResult.percentiles)) =
      some [("50", some 2), ("66", some 3), ("80", some 4), ("90", some 6),
        ("99", some 8)] ∧
    singleTrialChance ⟨1, 6, 0, 0, 0⟩ (1, 0, 0) ⟨0, 0, 0⟩ = some (1 / 3) ∧
    geomPpf (95 / 100) (some (1 / 3)) = some 8 ∧
    geomPpf (99 / 100) (some (1 / 3)) = some 12 := by
  with_unfolding_all decide

/-- End-to-end sanity instance of the model: for a 1-socket item with no
requirements and target (1,0,0) at the present label "66" the calculator
does return a list — the chromatic option alone survives (every bench
option either fixes at least as many sockets as the item has, giving a NaN
chance, or mismatches the target, giving chance 0). -/
theorem computeChances_concrete :
    computeChances ⟨1, 6, 0, 0, 0⟩ (1, 0, 0) "66" =
      some [⟨"chromatic", some (1 / 3), 1,
        [("50", some 2), ("66", some 3), ("80", some 4), ("90", some 6),
         ("99", some 8)]⟩] := by
  with_unfolding_all decide

/-- C4: the catalog is exactly the 19 colour-count triples of non-negative
integers summing to at most 3 with (1,1,1) excluded; it is a constant
(independent of item and target); and each option's label is "chromatic" for
(0,0,0) and otherwise "bench " followed by the nonzero count-letter pairs in
R, G, B order. -/
theorem claim_C4 :
    chromaticOptions.map (fun o => (o.r, o.g, o.b)) =
      [(3, 0, 0), (2, 1, 0), (2, 0, 1), (2, 0, 0), (1, 2, 0), (1, 1, 0),
       (1, 0, 2), (1, 0, 1), (1, 0, 0), (0, 3, 0), (0, 2, 1), (0, 2, 0),
       (0, 1, 2), (0, 1, 1), (0, 1, 0), (0, 0, 3), (0, 0, 2), (0, 0, 1),
       (0, 0, 0)] ∧
    chromaticOptions.length = 19 ∧
    (∀ r g b : ℕ,
        (⟨r, g, b⟩ : RGB) ∈ chromaticOptions ↔
          (r + g + b ≤ 3 ∧ ¬(r = 1 ∧ g = 1 ∧ b = 1))) ∧
    (∀ o ∈ chromaticOptions,
        RGB.str o =
          if o.r = 0 ∧ o.g = 0 ∧ o.b = 0 then "chromatic"
          else "bench " ++ (if 0 < o.r then toString o.r ++ "R" else "") ++
            (if 0 < o.g then toString o.g ++ "G" else "") ++
            (if 0 < o.b then toString o.b ++ "B" else "")) := by
  refine ⟨by decide, by decide, ?_, by decide⟩
  intro r g b
  constructor
  · intro hmem
    have hcat : chromaticOptions =
        [⟨3, 0, 0⟩, ⟨2, 1, 0⟩, ⟨2, 0, 1⟩, ⟨2, 0, 0⟩, ⟨1, 2, 0⟩, ⟨1, 1, 0⟩,
         ⟨1, 0, 2⟩, ⟨1, 0, 1⟩, ⟨1, 0, 0⟩, ⟨0, 3, 0⟩, ⟨0, 2, 1⟩, ⟨0, 2, 0⟩,
         ⟨0, 1, 2⟩, ⟨0, 1, 1⟩, ⟨0, 1, 0⟩, ⟨0, 0, 3⟩, ⟨0, 0, 2⟩, ⟨0, 0, 1⟩,
         ⟨0, 0, 0⟩] := by decide
    rw [hcat] at hmem
    simp only [List.mem_cons, List.not_mem_nil, or_false, RGB.mk.injEq] at hmem
    omega
  · rintro ⟨hsum, hne⟩
    have hr : r ≤ 3 := by omega
    have hg : g ≤ 3 := by omega
    have hb2 : b ≤ 3 := by omega
    interval_cases r <;> interval_cases g <;> interval_cases b <;>
      first
        | decide
        | omega

theorem claim_C4_witness : RGB.str ⟨2, 0, 1⟩ = "bench 2R1B" := by
  have h := claim_C4.2.2.2 ⟨2, 0, 1⟩ (by decide)
  rw [h]
  decide

end PyPoe
